import Mathlib

/-!
# Deterministic Real-Time Simulation Engine — verification development

Shallow embedding of `src/main.cpp`: a fixed-timestep simulation scheduler
with monotonic time sampling, delta-time clamping, a fixed-step accumulator
with a per-frame step cap, a bounded FIFO command queue, a one-dimensional
integrator with a terminal invalidity condition, and state interpolation
for presentation.

Modelling conventions:
* C++ `double` quantities (positions, velocities, times in seconds) are
  modelled as exact rationals `ℚ`; all arithmetic claims are settled in
  this exact-arithmetic model.
* Millisecond timestamps (`int64_t`) are modelled as `ℤ`.
* The global `std::deque<Command>` is modelled as a `List Command`
  (front = head of the list), threaded explicitly through the operations.
* `main`'s infinite loop is modelled per frame by `frameStep` (one loop
  iteration: sample/clamp dt, accumulate, run the bounded simulation loop,
  cap reset, input burst, interpolate) and iterated by `runFrames`.
-/

/-- `MAX_DT_SECONDS = 0.05` — delta-time clamp bound. -/
def MAX_DT_SECONDS : ℚ := 5 / 100

/-- `FIXED_DT_SECONDS = 0.01` — fixed simulation tick length. -/
def FIXED_DT_SECONDS : ℚ := 1 / 100

/-- `MAX_SIMULATION_STEPS_PER_FRAME = 5` — per-frame step cap. -/
def MAX_SIMULATION_STEPS_PER_FRAME : Nat := 5

/-- `MAX_COMMAND_QUEUE_SIZE = 32` — command queue capacity. -/
def MAX_COMMAND_QUEUE_SIZE : Nat := 32

/-- `MAX_COMMANDS_PER_STEP = 4` — commands drained per simulation tick. -/
def MAX_COMMANDS_PER_STEP : Nat := 4

/-- `enum class CommandType { Accelerate, Stop }`. -/
inductive CommandType where
  | Accelerate
  | Stop
deriving DecidableEq

/-- `struct Command { CommandType type; double value; }`. -/
structure Command where
  type : CommandType
  value : ℚ
deriving DecidableEq

/-- `struct SystemState { double position; double velocity; bool valid; }`. -/
structure SystemState where
  position : ℚ
  velocity : ℚ
  valid : Bool
deriving DecidableEq

/-- `updateSystem(SystemState&, double)` — the Integrator, as a pure
state-transformer: no-op on invalid states, otherwise integrates position
and applies the boundary rule (negative position ⇒ clamp to 0, zero the
velocity, invalidate). -/
def updateSystem (state : SystemState) (dtSeconds : ℚ) : SystemState :=
  if !state.valid then state
  else
    let position := state.position + state.velocity * dtSeconds
    if position < 0 then
      { position := 0, velocity := 0, valid := false }
    else
      { state with position := position }

/-- `enqueueCommand(const Command&)` — bounded intake: returns the success
flag together with the new queue contents. -/
def enqueueCommand (commandQueue : List Command) (cmd : Command) :
    Bool × List Command :=
  if MAX_COMMAND_QUEUE_SIZE ≤ commandQueue.length then
    (false, commandQueue)
  else
    (true, commandQueue ++ [cmd])

/-- A sequence of `enqueueCommand` calls; returns the list of success flags
and the final queue. -/
def enqueueAll (commandQueue : List Command) :
    List Command → List Bool × List Command
  | [] => ([], commandQueue)
  | cmd :: rest =>
    let r := enqueueCommand commandQueue cmd
    let r2 := enqueueAll r.2 rest
    (r.1 :: r2.1, r2.2)

/-- `applyCommand(SystemState&, const Command&)` — the CommandApplier:
no-op on invalid states; `Accelerate` adds to velocity, `Stop` zeroes it. -/
def applyCommand (state : SystemState) (cmd : Command) : SystemState :=
  if !state.valid then state
  else
    match cmd.type with
    | CommandType.Accelerate => { state with velocity := state.velocity + cmd.value }
    | CommandType.Stop => { state with velocity := 0 }

/-- `interpolateState(prev, curr, alpha)` — presentation-layer blend;
`valid` is taken from `curr` (via the initial copy `out = curr`). -/
def interpolateState (prev curr : SystemState) (alpha : ℚ) : SystemState :=
  { curr with
    position := prev.position * (1 - alpha) + curr.position * alpha
    velocity := prev.velocity * (1 - alpha) + curr.velocity * alpha }

/-- The mutable state of `main`'s loop: `currentState`, `previousState`,
`timeAccumulator`, and the global `commandQueue`. -/
structure LoopState where
  currentState : SystemState
  previousState : SystemState
  timeAccumulator : ℚ
  commandQueue : List Command
deriving DecidableEq

/-- The inner drain loop of one simulation tick:
`while (!commandQueue.empty() && processed < MAX_COMMANDS_PER_STEP)`,
applying each front command and popping it. The `Nat` argument is the
remaining command budget. -/
def drainCommands : Nat → SystemState → List Command → SystemState × List Command
  | 0, state, queue => (state, queue)
  | _ + 1, state, [] => (state, [])
  | budget + 1, state, cmd :: rest =>
    drainCommands budget (applyCommand state cmd) rest

/-- One iteration of the simulation loop body (lines 112–126): snapshot
`previousState`, drain up to `MAX_COMMANDS_PER_STEP` commands, integrate
one fixed tick, and spend `FIXED_DT_SECONDS` from the accumulator. -/
def simulationStep (st : LoopState) : LoopState :=
  let drained := drainCommands MAX_COMMANDS_PER_STEP st.currentState st.commandQueue
  { currentState := updateSystem drained.1 FIXED_DT_SECONDS
    previousState := st.currentState
    timeAccumulator := st.timeAccumulator - FIXED_DT_SECONDS
    commandQueue := drained.2 }

/-- Result of running the bounded simulation loop of one frame: the final
loop state, the number of ticks executed (`stepsThisFrame`), and the list
of `currentState` values observed after each tick. -/
structure SimLoopResult where
  state : LoopState
  steps : Nat
  trace : List SystemState
deriving DecidableEq

/-- The frame's simulation loop:
`while (timeAccumulator >= FIXED_DT_SECONDS && stepsThisFrame < MAX_SIMULATION_STEPS_PER_FRAME)`.
The `Nat` argument is the remaining step budget
(`MAX_SIMULATION_STEPS_PER_FRAME - stepsThisFrame`). -/
def runSimLoop : Nat → LoopState → SimLoopResult
  | 0, st => ⟨st, 0, []⟩
  | budget + 1, st =>
    if FIXED_DT_SECONDS ≤ st.timeAccumulator then
      let st1 := simulationStep st
      let r := runSimLoop budget st1
      ⟨r.state, r.steps + 1, st1.currentState :: r.trace⟩
    else
      ⟨st, 0, []⟩

/-- Clamping gate (lines 104–106): `if (dtSeconds > MAX_DT_SECONDS) dtSeconds = MAX_DT_SECONDS`. -/
def clampDt (dtSeconds : ℚ) : ℚ :=
  if MAX_DT_SECONDS < dtSeconds then MAX_DT_SECONDS else dtSeconds

/-- The clamped delta-time fed to the accumulator, from two millisecond
clock samples: `dtMs = now - lastTickMs; dtSeconds = dtMs / 1000.0;` then
the clamp. -/
def sampleDtSeconds (now lastTickMs : ℤ) : ℚ :=
  clampDt (((now - lastTickMs : ℤ) : ℚ) / 1000)

/-- The fixed per-frame input burst of `main` (lines 132–134): ten
`Accelerate(0.1)` commands pushed through `enqueueCommand`. -/
def inputBurst : List Command :=
  List.replicate 10 ⟨CommandType.Accelerate, 1 / 10⟩

/-- The observable outcome of one frame: the loop state carried to the next
frame, the number of ticks executed, the per-tick state trace, and the
interpolated `visualState` handed to the presentation layer. -/
structure FrameResult where
  state : LoopState
  stepsThisFrame : Nat
  trace : List SystemState
  visualState : SystemState
deriving DecidableEq

/-- One iteration of `main`'s loop, parameterised by the elapsed
milliseconds `dtMs` for this frame and by the commands enqueued by the
input layer this frame (the source's burst is `inputBurst`): clamp and
accumulate the delta time, run the bounded simulation loop, reset the
accumulator when the step cap was hit, enqueue the burst, and interpolate
for presentation. -/
def frameStep (st : LoopState) (dtMs : ℤ) (burst : List Command) : FrameResult :=
  let dtSeconds := sampleDtSeconds dtMs 0
  let st1 : LoopState := { st with timeAccumulator := st.timeAccumulator + dtSeconds }
  let r := runSimLoop MAX_SIMULATION_STEPS_PER_FRAME st1
  let st2 : LoopState :=
    if r.steps = MAX_SIMULATION_STEPS_PER_FRAME then
      { r.state with timeAccumulator := 0 }
    else
      r.state
  let st3 : LoopState := { st2 with commandQueue := (enqueueAll st2.commandQueue burst).2 }
  let alpha := st3.timeAccumulator / FIXED_DT_SECONDS
  ⟨st3, r.steps, r.trace, interpolateState st3.previousState st3.currentState alpha⟩

/-- Iterating `frameStep` over a list of per-frame inputs
`(dtMs, enqueued commands)`; returns the final loop state and the
concatenated sequence of post-tick `SystemState` values. -/
def runFrames (st : LoopState) : List (ℤ × List Command) → LoopState × List SystemState
  | [] => (st, [])
  | input :: rest =>
    let r := frameStep st input.1 input.2
    let rec2 := runFrames r.state rest
    (rec2.1, r.trace ++ rec2.2)

/-- `main`'s initial simulation state: `SystemState currentState {0.0, 1.0, true}`. -/
def initialCurrentState : SystemState := ⟨0, 1, true⟩

/-- `main`'s initial loop state. `SystemState previousState;` is
default-initialised and never assigned before the first tick, so its
indeterminate contents are modelled by the parameter `junk`. -/
def initialLoopState (junk : SystemState) : LoopState :=
  ⟨initialCurrentState, junk, 0, []⟩

/-! ## Component-level theorems -/

/-- C4: terminal invalidity — on a state with `valid = false`, both the
Integrator (`updateSystem`) and the CommandApplier (`applyCommand`) return
the state unchanged, for every `dt` and every command. -/
theorem terminal_invalidity (state : SystemState) (dtSeconds : ℚ) (cmd : Command)
    (h : state.valid = false) :
    updateSystem state dtSeconds = state ∧ applyCommand state cmd = state := by
  constructor
  · simp [updateSystem, h]
  · simp [applyCommand, h]

/-- Witness for `terminal_invalidity` at the concrete invalid state
`{position 0, velocity 0, valid false}` with `dt = 0.01` and a `Stop`
command. -/
theorem terminal_invalidity_witness :
    updateSystem ⟨0, 0, false⟩ FIXED_DT_SECONDS = (⟨0, 0, false⟩ : SystemState) ∧
    applyCommand ⟨0, 0, false⟩ ⟨CommandType.Stop, 0⟩ = (⟨0, 0, false⟩ : SystemState) :=
  terminal_invalidity ⟨0, 0, false⟩ FIXED_DT_SECONDS ⟨CommandType.Stop, 0⟩ rfl

/-- C5: Integrator boundary rule — on a valid state, if the integrated
position `position + velocity * dt` is negative, `updateSystem` produces
exactly `{position 0, velocity 0, valid false}`. -/
theorem updateSystem_boundary (state : SystemState) (dtSeconds : ℚ)
    (hv : state.valid = true)
    (hneg : state.position + state.velocity * dtSeconds < 0) :
    updateSystem state dtSeconds = ⟨0, 0, false⟩ := by
  simp [updateSystem, hv, hneg]

/-- Witness for `updateSystem_boundary`: Scenario D — from
`{position 0.02, velocity -5, valid true}` one tick with `dt = 0.01`
yields `{position 0, velocity 0, valid false}`. -/
theorem updateSystem_boundary_witness :
    updateSystem ⟨2 / 100, -5, true⟩ FIXED_DT_SECONDS = (⟨0, 0, false⟩ : SystemState) :=
  updateSystem_boundary ⟨2 / 100, -5, true⟩ FIXED_DT_SECONDS rfl (by norm_num [FIXED_DT_SECONDS])

/-- Helper: a single `enqueueCommand` call never brings the queue length
above `MAX_COMMAND_QUEUE_SIZE`. -/
theorem enqueueCommand_length_le (queue : List Command) (cmd : Command)
    (h : queue.length ≤ MAX_COMMAND_QUEUE_SIZE) :
    (enqueueCommand queue cmd).2.length ≤ MAX_COMMAND_QUEUE_SIZE := by
  unfold enqueueCommand
  by_cases hfull : MAX_COMMAND_QUEUE_SIZE ≤ queue.length
  · simpa [hfull] using h
  · simp only [hfull, if_false, List.length_append, List.length_singleton]
    omega

/-- Helper: `enqueueAll` preserves the queue bound. -/
theorem enqueueAll_length_le (cmds : List Command) (queue : List Command)
    (h : queue.length ≤ MAX_COMMAND_QUEUE_SIZE) :
    (enqueueAll queue cmds).2.length ≤ MAX_COMMAND_QUEUE_SIZE := by
  induction cmds generalizing queue with
  | nil => simpa [enqueueAll] using h
  | cons cmd rest ih =>
    simp only [enqueueAll]
    exact ih _ (enqueueCommand_length_le queue cmd h)

/-- C6: bounded intake with rejection atomicity — when the queue holds
fewer than 32 commands, `enqueueCommand` appends to the tail and returns
`true`; when it holds 32 or more it returns `false` and leaves the queue
unchanged; and any sequence of enqueue calls starting from a queue within
the bound keeps the length at most 32. -/
theorem enqueueCommand_bounded_intake (queue : List Command) (cmd : Command)
    (cmds : List Command) (h : queue.length ≤ MAX_COMMAND_QUEUE_SIZE) :
    (queue.length < MAX_COMMAND_QUEUE_SIZE →
      enqueueCommand queue cmd = (true, queue ++ [cmd])) ∧
    (MAX_COMMAND_QUEUE_SIZE ≤ queue.length →
      enqueueCommand queue cmd = (false, queue)) ∧
    (enqueueAll queue cmds).2.length ≤ MAX_COMMAND_QUEUE_SIZE := by
  refine ⟨fun hlt => ?_, fun hge => ?_, enqueueAll_length_le cmds queue h⟩
  · simp [enqueueCommand, Nat.not_le.mpr hlt]
  · simp [enqueueCommand, hge]

/-- Witness for `enqueueCommand_bounded_intake`: the empty queue accepts an
`Accelerate(0.1)` command, and any further calls keep the bound. -/
theorem enqueueCommand_bounded_intake_witness :
    (([] : List Command).length < MAX_COMMAND_QUEUE_SIZE →
      enqueueCommand [] ⟨CommandType.Accelerate, 1 / 10⟩ =
        (true, [] ++ [⟨CommandType.Accelerate, 1 / 10⟩])) ∧
    (MAX_COMMAND_QUEUE_SIZE ≤ ([] : List Command).length →
      enqueueCommand [] ⟨CommandType.Accelerate, 1 / 10⟩ = (false, [])) ∧
    (enqueueAll [] [⟨CommandType.Accelerate, 1 / 10⟩]).2.length ≤ MAX_COMMAND_QUEUE_SIZE :=
  enqueueCommand_bounded_intake [] ⟨CommandType.Accelerate, 1 / 10⟩
    [⟨CommandType.Accelerate, 1 / 10⟩] (by simp)

/-- C7: delta-time clamping — when the clock is non-decreasing
(`lastTickMs ≤ now`), the clamped delta time fed to the accumulator
satisfies `0 ≤ dtSeconds ≤ MAX_DT_SECONDS`. -/
theorem sampleDtSeconds_clamped (now lastTickMs : ℤ) (h : lastTickMs ≤ now) :
    0 ≤ sampleDtSeconds now lastTickMs ∧
    sampleDtSeconds now lastTickMs ≤ MAX_DT_SECONDS := by
  unfold sampleDtSeconds clampDt
  by_cases hgt : MAX_DT_SECONDS < ((now - lastTickMs : ℤ) : ℚ) / 1000
  · simp only [hgt, if_true]
    exact ⟨by norm_num [MAX_DT_SECONDS], le_refl _⟩
  · simp only [hgt, if_false]
    constructor
    · apply div_nonneg _ (by norm_num)
      exact_mod_cast sub_nonneg.mpr h
    · exact le_of_not_lt hgt

/-- Witness for `sampleDtSeconds_clamped` at `now = 500`, `lastTickMs = 0`:
the clamped dt is within `[0, MAX_DT_SECONDS]`. -/
theorem sampleDtSeconds_clamped_witness :
    0 ≤ sampleDtSeconds 500 0 ∧ sampleDtSeconds 500 0 ≤ MAX_DT_SECONDS :=
  sampleDtSeconds_clamped 500 0 (by norm_num)

/-! ## Scheduler-loop lemmas -/

/-- One simulation step spends exactly `FIXED_DT_SECONDS` of accumulator. -/
theorem simulationStep_timeAccumulator (st : LoopState) :
    (simulationStep st).timeAccumulator = st.timeAccumulator - FIXED_DT_SECONDS := rfl

/-- When the accumulator holds at least `budget` ticks worth of time, the
simulation loop exhausts its whole step budget. -/
theorem runSimLoop_steps_eq_budget (budget : Nat) (st : LoopState)
    (h : (budget : ℚ) * FIXED_DT_SECONDS ≤ st.timeAccumulator) :
    (runSimLoop budget st).steps = budget := by
  induction budget generalizing st with
  | zero => rfl
  | succ n ih =>
    have hd : (0 : ℚ) < FIXED_DT_SECONDS := by norm_num [FIXED_DT_SECONDS]
    have h1 : FIXED_DT_SECONDS ≤ st.timeAccumulator := by
      have hcast : ((n : ℚ) + 1) * FIXED_DT_SECONDS ≤ st.timeAccumulator := by
        push_cast at h; linarith
      nlinarith [Nat.cast_nonneg (α := ℚ) n]
    simp only [runSimLoop, h1, if_true]
    have h2 : (n : ℚ) * FIXED_DT_SECONDS ≤ (simulationStep st).timeAccumulator := by
      rw [simulationStep_timeAccumulator]
      push_cast at h
      linarith
    rw [ih _ h2]

/-- The simulation loop keeps the accumulator non-negative. -/
theorem runSimLoop_acc_nonneg (budget : Nat) (st : LoopState)
    (h : 0 ≤ st.timeAccumulator) :
    0 ≤ (runSimLoop budget st).state.timeAccumulator := by
  induction budget generalizing st with
  | zero => exact h
  | succ n ih =>
    by_cases hc : FIXED_DT_SECONDS ≤ st.timeAccumulator
    · simp only [runSimLoop, hc, if_true]
      apply ih
      rw [simulationStep_timeAccumulator]
      linarith
    · simpa [runSimLoop, hc] using h

/-- If the loop stops short of its budget, it stopped because the
accumulator fell below one tick. -/
theorem runSimLoop_acc_lt_of_steps_lt (budget : Nat) (st : LoopState)
    (h : (runSimLoop budget st).steps < budget) :
    (runSimLoop budget st).state.timeAccumulator < FIXED_DT_SECONDS := by
  induction budget generalizing st with
  | zero => exact absurd h (Nat.not_lt_zero _)
  | succ n ih =>
    by_cases hc : FIXED_DT_SECONDS ≤ st.timeAccumulator
    · simp only [runSimLoop, hc, if_true] at h ⊢
      exact ih _ (Nat.lt_of_succ_lt_succ h)
    · simp only [runSimLoop, hc, if_false]
      exact lt_of_not_le hc

/-- The clamped delta time is non-negative whenever the clock did not go
backwards. -/
theorem sampleDtSeconds_nonneg (now lastTickMs : ℤ) (h : lastTickMs ≤ now) :
    0 ≤ sampleDtSeconds now lastTickMs := by
  unfold sampleDtSeconds clampDt
  by_cases hgt : MAX_DT_SECONDS < ((now - lastTickMs : ℤ) : ℚ) / 1000
  · simp only [hgt, if_true]
    norm_num [MAX_DT_SECONDS]
  · simp only [hgt, if_false]
    apply div_nonneg _ (by norm_num)
    exact_mod_cast sub_nonneg.mpr h

/-- C1: step cap — whenever the owed accumulated time for a frame would
imply more than 5 fixed ticks (`accumulator + dt ≥ 6 * FIXED_DT_SECONDS`),
the frame executes exactly `MAX_SIMULATION_STEPS_PER_FRAME = 5` ticks and
ends with the accumulator reset to 0, discarding the unconsumed time. -/
theorem step_cap_discards_time (st : LoopState) (dtMs : ℤ) (burst : List Command)
    (h : 6 * FIXED_DT_SECONDS ≤ st.timeAccumulator + sampleDtSeconds dtMs 0) :
    (frameStep st dtMs burst).stepsThisFrame = MAX_SIMULATION_STEPS_PER_FRAME ∧
    (frameStep st dtMs burst).state.timeAccumulator = 0 := by
  have hd : (0 : ℚ) < FIXED_DT_SECONDS := by norm_num [FIXED_DT_SECONDS]
  have hsteps : (runSimLoop MAX_SIMULATION_STEPS_PER_FRAME
      { st with timeAccumulator := st.timeAccumulator + sampleDtSeconds dtMs 0 }).steps =
      MAX_SIMULATION_STEPS_PER_FRAME := by
    apply runSimLoop_steps_eq_budget
    show ((MAX_SIMULATION_STEPS_PER_FRAME : Nat) : ℚ) * FIXED_DT_SECONDS ≤
      st.timeAccumulator + sampleDtSeconds dtMs 0
    simp only [MAX_SIMULATION_STEPS_PER_FRAME]
    push_cast
    linarith
  simp only [frameStep, hsteps, if_true]
  exact ⟨trivial, trivial⟩

/-- Witness for `step_cap_discards_time`: a frame owing `0.07s` (e.g. a
carried accumulator of `0.02` plus a stall clamped to `0.05`) runs exactly
5 ticks and zeroes the accumulator. -/
theorem step_cap_discards_time_witness :
    (frameStep ⟨⟨0, 1, true⟩, ⟨0, 1, true⟩, 2 / 100, []⟩ 500 []).stepsThisFrame =
      MAX_SIMULATION_STEPS_PER_FRAME ∧
    (frameStep ⟨⟨0, 1, true⟩, ⟨0, 1, true⟩, 2 / 100, []⟩ 500 []).state.timeAccumulator = 0 :=
  step_cap_discards_time ⟨⟨0, 1, true⟩, ⟨0, 1, true⟩, 2 / 100, []⟩ 500 []
    (by norm_num [sampleDtSeconds, clampDt, FIXED_DT_SECONDS, MAX_DT_SECONDS])

/-- C3: accumulator invariant — starting a frame with a non-negative
accumulator and a non-decreasing clock, the accumulator is non-negative
right after the frame's time is added, remains non-negative at the end of
the frame, and after any frame in which the step cap was not reached it is
strictly below `FIXED_DT_SECONDS`. -/
theorem accumulator_invariant (st : LoopState) (dtMs : ℤ) (burst : List Command)
    (hacc : 0 ≤ st.timeAccumulator) (hdt : 0 ≤ dtMs) :
    0 ≤ st.timeAccumulator + sampleDtSeconds dtMs 0 ∧
    0 ≤ (frameStep st dtMs burst).state.timeAccumulator ∧
    ((frameStep st dtMs burst).stepsThisFrame < MAX_SIMULATION_STEPS_PER_FRAME →
      (frameStep st dtMs burst).state.timeAccumulator < FIXED_DT_SECONDS) := by
  have hdt0 : 0 ≤ sampleDtSeconds dtMs 0 := sampleDtSeconds_nonneg dtMs 0 hdt
  have hacc1 : 0 ≤ st.timeAccumulator + sampleDtSeconds dtMs 0 := by linarith
  set st1 : LoopState := { st with timeAccumulator := st.timeAccumulator + sampleDtSeconds dtMs 0 }
  have hrun0 : 0 ≤ (runSimLoop MAX_SIMULATION_STEPS_PER_FRAME st1).state.timeAccumulator :=
    runSimLoop_acc_nonneg _ _ hacc1
  refine ⟨hacc1, ?_, ?_⟩
  · by_cases hcap : (runSimLoop MAX_SIMULATION_STEPS_PER_FRAME st1).steps =
        MAX_SIMULATION_STEPS_PER_FRAME
    · simp only [frameStep, hcap, if_true]
      exact le_refl 0
    · simp only [frameStep, hcap, if_false]
      exact hrun0
  · intro hlt
    have hlt2 : (runSimLoop MAX_SIMULATION_STEPS_PER_FRAME st1).steps <
        MAX_SIMULATION_STEPS_PER_FRAME := by
      simpa only [frameStep] using hlt
    have hne : ¬ (runSimLoop MAX_SIMULATION_STEPS_PER_FRAME st1).steps =
        MAX_SIMULATION_STEPS_PER_FRAME := Nat.ne_of_lt hlt2
    simp only [frameStep, hne, if_false]
    exact runSimLoop_acc_lt_of_steps_lt _ _ hlt2

/-- Witness for `accumulator_invariant`: a quiet frame (`dt = 5ms`) from a
fresh accumulator satisfies all three accumulator bounds. -/
theorem accumulator_invariant_witness :
    0 ≤ (0 : ℚ) + sampleDtSeconds 5 0 ∧
    0 ≤ (frameStep ⟨⟨0, 1, true⟩, ⟨0, 1, true⟩, 0, []⟩ 5 []).state.timeAccumulator ∧
    ((frameStep ⟨⟨0, 1, true⟩, ⟨0, 1, true⟩, 0, []⟩ 5 []).stepsThisFrame <
        MAX_SIMULATION_STEPS_PER_FRAME →
      (frameStep ⟨⟨0, 1, true⟩, ⟨0, 1, true⟩, 0, []⟩ 5 []).state.timeAccumulator <
        FIXED_DT_SECONDS) :=
  accumulator_invariant ⟨⟨0, 1, true⟩, ⟨0, 1, true⟩, 0, []⟩ 5 [] (le_refl 0) (by norm_num)

/-! ## Determinism: the tick-state sequence is a function of the initial
`SystemState` and the per-frame inputs (the never-read initial
`previousState` does not influence it). -/

/-- `simulationStep` never reads `previousState` (it only overwrites it). -/
theorem simulationStep_prev_irrel (c p1 p2 : SystemState) (a : ℚ) (q : List Command) :
    simulationStep ⟨c, p1, a, q⟩ = simulationStep ⟨c, p2, a, q⟩ := rfl

/-- The simulation loop's step count, trace, and all result-state fields
except `previousState` are independent of the entering `previousState`. -/
theorem runSimLoop_prev_irrel (budget : Nat) (c p1 p2 : SystemState) (a : ℚ)
    (q : List Command) :
    (runSimLoop budget ⟨c, p1, a, q⟩).steps = (runSimLoop budget ⟨c, p2, a, q⟩).steps ∧
    (runSimLoop budget ⟨c, p1, a, q⟩).trace = (runSimLoop budget ⟨c, p2, a, q⟩).trace ∧
    (runSimLoop budget ⟨c, p1, a, q⟩).state.currentState =
      (runSimLoop budget ⟨c, p2, a, q⟩).state.currentState ∧
    (runSimLoop budget ⟨c, p1, a, q⟩).state.timeAccumulator =
      (runSimLoop budget ⟨c, p2, a, q⟩).state.timeAccumulator ∧
    (runSimLoop budget ⟨c, p1, a, q⟩).state.commandQueue =
      (runSimLoop budget ⟨c, p2, a, q⟩).state.commandQueue := by
  cases budget with
  | zero => exact ⟨rfl, rfl, rfl, rfl, rfl⟩
  | succ n =>
    simp only [runSimLoop, simulationStep_prev_irrel c p1 p2 a q]
    by_cases hc : FIXED_DT_SECONDS ≤ a <;> simp [hc]

/-- One frame preserves the `previousState`-irrelevance: starting two
frames on states differing only in `previousState`, the step counts,
traces, and all result-state fields except `previousState` agree. -/
theorem frameStep_prev_irrel (c p1 p2 : SystemState) (a : ℚ) (q : List Command)
    (dtMs : ℤ) (burst : List Command) :
    (frameStep ⟨c, p1, a, q⟩ dtMs burst).stepsThisFrame =
      (frameStep ⟨c, p2, a, q⟩ dtMs burst).stepsThisFrame ∧
    (frameStep ⟨c, p1, a, q⟩ dtMs burst).trace =
      (frameStep ⟨c, p2, a, q⟩ dtMs burst).trace ∧
    (frameStep ⟨c, p1, a, q⟩ dtMs burst).state.currentState =
      (frameStep ⟨c, p2, a, q⟩ dtMs burst).state.currentState ∧
    (frameStep ⟨c, p1, a, q⟩ dtMs burst).state.timeAccumulator =
      (frameStep ⟨c, p2, a, q⟩ dtMs burst).state.timeAccumulator ∧
    (frameStep ⟨c, p1, a, q⟩ dtMs burst).state.commandQueue =
      (frameStep ⟨c, p2, a, q⟩ dtMs burst).state.commandQueue := by
  obtain ⟨h1, h2, h3, h4, h5⟩ := runSimLoop_prev_irrel MAX_SIMULATION_STEPS_PER_FRAME
    c p1 p2 (a + sampleDtSeconds dtMs 0) q
  by_cases hcap : (runSimLoop MAX_SIMULATION_STEPS_PER_FRAME
      ⟨c, p1, a + sampleDtSeconds dtMs 0, q⟩).steps = MAX_SIMULATION_STEPS_PER_FRAME
  · have hcap2 : (runSimLoop MAX_SIMULATION_STEPS_PER_FRAME
        ⟨c, p2, a + sampleDtSeconds dtMs 0, q⟩).steps = MAX_SIMULATION_STEPS_PER_FRAME :=
      h1.symm.trans hcap
    simp only [frameStep, hcap, hcap2, if_true]
    simp [h1, h2, h3, h4, h5]
  · have hcap2 : ¬ (runSimLoop MAX_SIMULATION_STEPS_PER_FRAME
        ⟨c, p2, a + sampleDtSeconds dtMs 0, q⟩).steps = MAX_SIMULATION_STEPS_PER_FRAME :=
      fun h => hcap (h1.trans h)
    simp only [frameStep, hcap, hcap2, if_false]
    simp [h1, h2, h3, h4, h5]

/-- The whole run's tick-state sequence is independent of the entering
`previousState`. -/
theorem runFrames_prev_irrel (ins : List (ℤ × List Command)) (c p1 p2 : SystemState)
    (a : ℚ) (q : List Command) :
    (runFrames ⟨c, p1, a, q⟩ ins).2 = (runFrames ⟨c, p2, a, q⟩ ins).2 := by
  induction ins generalizing c p1 p2 a q with
  | nil => rfl
  | cons input rest ih =>
    obtain ⟨h1, h2, h3, h4, h5⟩ := frameStep_prev_irrel c p1 p2 a q input.1 input.2
    simp only [runFrames]
    rw [h2]
    congr 1
    calc ((runFrames (frameStep ⟨c, p1, a, q⟩ input.1 input.2).state rest).2)
        = (runFrames ⟨(frameStep ⟨c, p2, a, q⟩ input.1 input.2).state.currentState,
            (frameStep ⟨c, p1, a, q⟩ input.1 input.2).state.previousState,
            (frameStep ⟨c, p2, a, q⟩ input.1 input.2).state.timeAccumulator,
            (frameStep ⟨c, p2, a, q⟩ input.1 input.2).state.commandQueue⟩ rest).2 := by
          rw [show (frameStep ⟨c, p1, a, q⟩ input.1 input.2).state =
            (⟨(frameStep ⟨c, p1, a, q⟩ input.1 input.2).state.currentState,
              (frameStep ⟨c, p1, a, q⟩ input.1 input.2).state.previousState,
              (frameStep ⟨c, p1, a, q⟩ input.1 input.2).state.timeAccumulator,
              (frameStep ⟨c, p1, a, q⟩ input.1 input.2).state.commandQueue⟩ : LoopState)
            from rfl, h3, h4, h5]
      _ = (runFrames ⟨(frameStep ⟨c, p2, a, q⟩ input.1 input.2).state.currentState,
            (frameStep ⟨c, p2, a, q⟩ input.1 input.2).state.previousState,
            (frameStep ⟨c, p2, a, q⟩ input.1 input.2).state.timeAccumulator,
            (frameStep ⟨c, p2, a, q⟩ input.1 input.2).state.commandQueue⟩ rest).2 := ih _ _ _ _ _
      _ = (runFrames (frameStep ⟨c, p2, a, q⟩ input.1 input.2).state rest).2 := rfl

/-- C2: determinism — two executions of the per-frame scheduler driven by
identical sequences of (frame delta, enqueued commands) pairs, starting
from the same initial `SystemState` (with a fresh accumulator and queue,
and any contents of the never-assigned `previousState`), produce the same
sequence of `SystemState` values after each tick. -/
theorem run_determinism (s p1 p2 : SystemState) (ins1 ins2 : List (ℤ × List Command))
    (h : ins1 = ins2) :
    (runFrames ⟨s, p1, 0, []⟩ ins1).2 = (runFrames ⟨s, p2, 0, []⟩ ins2).2 := by
  subst h
  exact runFrames_prev_irrel ins1 s p1 p2 0 []

/-- Witness for `run_determinism`: two 20ms frames with the source's input
burst, from `main`'s initial state and two different junk `previousState`
values, yield the same tick-state sequence. -/
theorem run_determinism_witness :
    (runFrames ⟨⟨0, 1, true⟩, ⟨0, 0, true⟩, 0, []⟩
        [(20, inputBurst), (20, inputBurst)]).2 =
    (runFrames ⟨⟨0, 1, true⟩, ⟨77, -3, false⟩, 0, []⟩
        [(20, inputBurst), (20, inputBurst)]).2 :=
  run_determinism ⟨0, 1, true⟩ ⟨0, 0, true⟩ ⟨77, -3, false⟩
    [(20, inputBurst), (20, inputBurst)] [(20, inputBurst), (20, inputBurst)] rfl

/-! ## Command application within one tick's drain -/

/-- Draining a two-command queue applies both commands in FIFO order and
empties the queue. -/
theorem drainCommands_two (s : SystemState) (c1 c2 : Command) :
    drainCommands MAX_COMMANDS_PER_STEP s [c1, c2] =
      (applyCommand (applyCommand s c1) c2, []) := rfl

/-- C8 counterexample: on an invalid state with non-zero velocity, one
tick's FIFO drain of `[Accelerate(1), Stop]` leaves the velocity unchanged
at 5 rather than 0, because `applyCommand` (including its `Stop` branch)
is a no-op on states with `valid = false`. -/
theorem stop_overrides_counterexample :
    (drainCommands MAX_COMMANDS_PER_STEP ⟨0, 5, false⟩
      [⟨CommandType.Accelerate, 1⟩, ⟨CommandType.Stop, 0⟩]).1.velocity ≠ 0 := by
  decide

/-- C8 amended: for every state with `valid = true`, one tick's FIFO drain
of `[Accelerate(v), Stop]` yields velocity 0 for every prior velocity and
every `v`, because `Stop` is processed last and zeroes the velocity. -/
theorem stop_overrides (s : SystemState) (v w : ℚ) (hv : s.valid = true) :
    (drainCommands MAX_COMMANDS_PER_STEP s
      [⟨CommandType.Accelerate, v⟩, ⟨CommandType.Stop, w⟩]).1.velocity = 0 := by
  rw [drainCommands_two]
  simp [applyCommand, hv]

/-- Witness for `stop_overrides`: Scenario E at the valid state
`{position 0, velocity 1, valid true}` with `Accelerate(1)` then `Stop`. -/
theorem stop_overrides_witness :
    (drainCommands MAX_COMMANDS_PER_STEP ⟨0, 1, true⟩
      [⟨CommandType.Accelerate, 1⟩, ⟨CommandType.Stop, 0⟩]).1.velocity = 0 :=
  stop_overrides ⟨0, 1, true⟩ 1 0 rfl

/-- On a valid state whose integrated position does not go negative, the
Integrator advances the position and keeps velocity and validity. -/
theorem updateSystem_nonneg (state : SystemState) (dtSeconds : ℚ)
    (hv : state.valid = true)
    (h : ¬ state.position + state.velocity * dtSeconds < 0) :
    updateSystem state dtSeconds =
      ⟨state.position + state.velocity * dtSeconds, state.velocity, state.valid⟩ := by
  simp [updateSystem, hv, h]

/-- C9: Scenario B — enqueueing 40 `Accelerate(0.1)` commands into the
empty queue accepts exactly 32 (8 calls return `false`, queue length 32);
the first tick then drains exactly 4 commands, leaving 28 queued, and the
velocity after that tick exceeds its pre-tick value by exactly 0.4. -/
theorem intake_overflow_scenario :
    (enqueueAll [] (List.replicate 40 ⟨CommandType.Accelerate, 1 / 10⟩)).1.count true = 32 ∧
    (enqueueAll [] (List.replicate 40 ⟨CommandType.Accelerate, 1 / 10⟩)).1.count false = 8 ∧
    (enqueueAll [] (List.replicate 40 ⟨CommandType.Accelerate, 1 / 10⟩)).2.length = 32 ∧
    (simulationStep ⟨initialCurrentState, initialCurrentState, FIXED_DT_SECONDS,
      (enqueueAll [] (List.replicate 40 ⟨CommandType.Accelerate, 1 / 10⟩)).2⟩
      ).commandQueue.length = 28 ∧
    (simulationStep ⟨initialCurrentState, initialCurrentState, FIXED_DT_SECONDS,
      (enqueueAll [] (List.replicate 40 ⟨CommandType.Accelerate, 1 / 10⟩)).2⟩
      ).currentState.velocity = initialCurrentState.velocity + 4 / 10 := by
  have hflags : (enqueueAll [] (List.replicate 40 ⟨CommandType.Accelerate, 1 / 10⟩)).1 =
      List.replicate 32 true ++ List.replicate 8 false := rfl
  have hq : (enqueueAll [] (List.replicate 40 ⟨CommandType.Accelerate, 1 / 10⟩)).2 =
      List.replicate 32 ⟨CommandType.Accelerate, 1 / 10⟩ := rfl
  have hdrain : drainCommands MAX_COMMANDS_PER_STEP initialCurrentState
      (List.replicate 32 ⟨CommandType.Accelerate, 1 / 10⟩) =
      (⟨0, 1 + 1 / 10 + 1 / 10 + 1 / 10 + 1 / 10, true⟩,
       List.replicate 28 ⟨CommandType.Accelerate, 1 / 10⟩) := rfl
  refine ⟨?_, ?_, ?_, ?_, ?_⟩
  · rw [hflags]; decide
  · rw [hflags]; decide
  · rw [hq]; decide
  · rw [hq]
    simp only [simulationStep, hdrain]
    decide
  · rw [hq]
    simp only [simulationStep, hdrain]
    rw [updateSystem_nonneg _ _ rfl (by norm_num [FIXED_DT_SECONDS])]
    norm_num [initialCurrentState]

/-! ## Presentation output before the first tick -/

/-- The simulation loop performs no step when the accumulator is below one
tick. -/
theorem runSimLoop_no_step (budget : Nat) (st : LoopState)
    (h : ¬ FIXED_DT_SECONDS ≤ st.timeAccumulator) :
    runSimLoop budget st = ⟨st, 0, []⟩ := by
  cases budget with
  | zero => rfl
  | succ n => simp only [runSimLoop, h, if_false]

/-- Before the first tick of a run (owed time still below one tick), a
frame executes no simulation step and presents the interpolation of the
untouched `previousState` with the current state. -/
theorem frame_no_tick (junk : SystemState) (a : ℚ)
    (q : List Command) (dtMs : ℤ) (burst : List Command)
    (h : a + sampleDtSeconds dtMs 0 < FIXED_DT_SECONDS) :
    (frameStep ⟨initialCurrentState, junk, a, q⟩ dtMs burst).stepsThisFrame = 0 ∧
    (frameStep ⟨initialCurrentState, junk, a, q⟩ dtMs burst).visualState =
      interpolateState junk initialCurrentState
        ((a + sampleDtSeconds dtMs 0) / FIXED_DT_SECONDS) := by
  have hno : ¬ FIXED_DT_SECONDS ≤
      ((⟨initialCurrentState, junk, a, q⟩ : LoopState)).timeAccumulator +
        sampleDtSeconds dtMs 0 :=
    not_le.mpr h
  have hrun := runSimLoop_no_step MAX_SIMULATION_STEPS_PER_FRAME
    { (⟨initialCurrentState, junk, a, q⟩ : LoopState) with
      timeAccumulator :=
        ((⟨initialCurrentState, junk, a, q⟩ : LoopState)).timeAccumulator +
          sampleDtSeconds dtMs 0 } hno
  constructor
  · simp only [frameStep, hrun]
  · simp only [frameStep, hrun]
    simp [MAX_SIMULATION_STEPS_PER_FRAME]

/-- C10: on any frame run before the first simulation tick (the owed time
`a + dt` is still below `FIXED_DT_SECONDS`, so the inner loop body has
never executed and `previousState` still holds its never-assigned initial
contents `junk`), the frame executes no tick and its presentation output
is `interpolateState junk currentState alpha`; concretely, two runs that
differ only in that indeterminate `junk` display different positions on
the same initial state and inputs. -/
theorem uninitialized_previous_state_leak (junk : SystemState) (a : ℚ)
    (q : List Command) (dtMs : ℤ) (burst : List Command)
    (h : a + sampleDtSeconds dtMs 0 < FIXED_DT_SECONDS) :
    (frameStep ⟨initialCurrentState, junk, a, q⟩ dtMs burst).stepsThisFrame = 0 ∧
    (frameStep ⟨initialCurrentState, junk, a, q⟩ dtMs burst).visualState =
      interpolateState junk initialCurrentState
        ((a + sampleDtSeconds dtMs 0) / FIXED_DT_SECONDS) ∧
    (frameStep (initialLoopState ⟨0, 0, true⟩) 0 inputBurst).visualState.position ≠
      (frameStep (initialLoopState ⟨42, 0, true⟩) 0 inputBurst).visualState.position := by
  obtain ⟨h1, h2⟩ := frame_no_tick junk a q dtMs burst h
  have hdt0 : (0 : ℚ) + sampleDtSeconds 0 0 < FIXED_DT_SECONDS := by
    norm_num [sampleDtSeconds, clampDt, MAX_DT_SECONDS, FIXED_DT_SECONDS]
  have e1 := (frame_no_tick ⟨0, 0, true⟩ 0 [] 0 inputBurst hdt0).2
  have e2 := (frame_no_tick ⟨42, 0, true⟩ 0 [] 0 inputBurst hdt0).2
  refine ⟨h1, h2, ?_⟩
  rw [show initialLoopState ⟨0, 0, true⟩ =
      (⟨initialCurrentState, ⟨0, 0, true⟩, 0, []⟩ : LoopState) from rfl,
    show initialLoopState ⟨42, 0, true⟩ =
      (⟨initialCurrentState, ⟨42, 0, true⟩, 0, []⟩ : LoopState) from rfl, e1, e2]
  norm_num [interpolateState, initialCurrentState, sampleDtSeconds, clampDt,
    MAX_DT_SECONDS, FIXED_DT_SECONDS]

/-- Witness for `uninitialized_previous_state_leak` at `junk = ⟨7, 7, true⟩`,
a fresh accumulator and queue, and a 5ms frame. -/
theorem uninitialized_previous_state_leak_witness :
    (frameStep ⟨initialCurrentState, ⟨7, 7, true⟩, 0, []⟩ 5 inputBurst).stepsThisFrame = 0 ∧
    (frameStep ⟨initialCurrentState, ⟨7, 7, true⟩, 0, []⟩ 5 inputBurst).visualState =
      interpolateState ⟨7, 7, true⟩ initialCurrentState
        ((0 + sampleDtSeconds 5 0) / FIXED_DT_SECONDS) ∧
    (frameStep (initialLoopState ⟨0, 0, true⟩) 0 inputBurst).visualState.position ≠
      (frameStep (initialLoopState ⟨42, 0, true⟩) 0 inputBurst).visualState.position :=
  uninitialized_previous_state_leak ⟨7, 7, true⟩ 0 [] 5 inputBurst
    (by norm_num [sampleDtSeconds, clampDt, MAX_DT_SECONDS, FIXED_DT_SECONDS])
